import Mathlib

/-!
Verification of the procedural mesh-generation and differential-geometry
pipeline of the "parabolic humming-top" renderer.

The repository has three variants of the renderer:
* `P1`  — the wireframe variant (src/P1/main.js),
* `P2`  — the flat-shaded solid variant (src/P2/main.js, first document),
* `P2T` — the textured solid variant (src/P2/main.js, second document).

JavaScript numbers are modelled by real numbers (`ℝ`); the flat
`Float32Array`-style buffers of stride 3 are modelled as lists of 3-vectors
(`Vec3`): an access `a[3*i + c]` in the source corresponds to component `c`
of list element `i` here.  `Math.hypot (a, b, c)` is `Real.sqrt (a^2+b^2+c^2)`,
`Math.abs` is `|·|`, `Math.cos`/`Math.sin` are `Real.cos`/`Real.sin`.
Out-of-range reads (which would be `undefined`/NaN in JavaScript) are given
the default value `0`; all accesses performed by the pipeline are in range.
-/

noncomputable section

/-- A 3-component vector, one stride-3 cell of a flat vertex buffer. -/
structure Vec3 where
  x : ℝ
  y : ℝ
  z : ℝ

namespace Vec3

/-- Componentwise addition (`normals[3*i] += nx` etc. acts componentwise). -/
def add (a b : Vec3) : Vec3 := ⟨a.x + b.x, a.y + b.y, a.z + b.z⟩

instance : Add Vec3 := ⟨Vec3.add⟩

/-- The zero vector, the initial value every normal slot is filled with. -/
def zero : Vec3 := ⟨0, 0, 0⟩

instance : Zero Vec3 := ⟨Vec3.zero⟩

/-- Componentwise subtraction (edge vectors `b - a`). -/
def sub (a b : Vec3) : Vec3 := ⟨a.x - b.x, a.y - b.y, a.z - b.z⟩

instance : Sub Vec3 := ⟨Vec3.sub⟩

/-- Division of every component by a scalar (`nx /= len` etc.). -/
def divScalar (a : Vec3) (c : ℝ) : Vec3 := ⟨a.x / c, a.y / c, a.z / c⟩

/-- The cross product, written componentwise as in the source
(`uy*vz - uz*vy`, `uz*vx - ux*vz`, `ux*vy - uy*vx`). -/
def cross (u v : Vec3) : Vec3 :=
  ⟨u.y * v.z - u.z * v.y, u.z * v.x - u.x * v.z, u.x * v.y - u.y * v.x⟩

/-- Euclidean length, `Math.hypot (x, y, z)`. -/
def norm3 (a : Vec3) : ℝ := Real.sqrt (a.x ^ 2 + a.y ^ 2 + a.z ^ 2)

@[simp] theorem add_def (a b : Vec3) :
    a + b = ⟨a.x + b.x, a.y + b.y, a.z + b.z⟩ := rfl

@[simp] theorem sub_def (a b : Vec3) :
    a - b = ⟨a.x - b.x, a.y - b.y, a.z - b.z⟩ := rfl

@[simp] theorem zero_def : (0 : Vec3) = ⟨0, 0, 0⟩ := rfl

theorem norm3_nonneg (a : Vec3) : 0 ≤ a.norm3 := Real.sqrt_nonneg _

/-- Length of a componentwise scalar quotient, for a positive scalar. -/
theorem norm3_divScalar (a : Vec3) {c : ℝ} (hc : 0 < c) :
    (a.divScalar c).norm3 = a.norm3 / c := by
  unfold norm3 divScalar
  have h1 : (a.x / c) ^ 2 + (a.y / c) ^ 2 + (a.z / c) ^ 2 =
      (a.x ^ 2 + a.y ^ 2 + a.z ^ 2) / c ^ 2 := by
    field_simp
  rw [h1, Real.sqrt_div (by positivity), Real.sqrt_sq hc.le]

end Vec3

/-! ## P1 — the wireframe variant (src/P1/main.js) -/

namespace P1

/-- `parabolicHummingTopVertex` (src/P1/main.js lines 126-134):
`rBase = |y| - h`, `r = rBase*rBase / (2p)`, returns `(r·cos β, y, r·sin β)`. -/
def parabolicHummingTopVertex (y beta h p : ℝ) : Vec3 :=
  let rBase := |y| - h
  let r := rBase * rBase / (2 * p)
  let x := r * Real.cos beta
  let z := r * Real.sin beta
  ⟨x, y, z⟩

/-- `generateULines` (src/P1/main.js lines 136-149): one polyline per row
`j = 0..vSegments` at `y = -h + 2h·j/vSegments`, sweeping
`beta = 2π·i/uSegments` for `i = 0..uSegments`. -/
def generateULines (h p : ℝ) (vSegments uSegments : ℕ) : List (List Vec3) :=
  (List.range (vSegments + 1)).map (fun (j : ℕ) =>
    let y := -h + 2 * h * (j : ℝ) / (vSegments : ℝ)
    (List.range (uSegments + 1)).map (fun (i : ℕ) =>
      let beta := 2 * Real.pi * (i : ℝ) / (uSegments : ℝ)
      parabolicHummingTopVertex y beta h p))

/-- `generateVLines` (src/P1/main.js lines 151-164): one polyline per angle
`i = 0..uSegments` at `beta = 2π·i/uSegments`, sweeping
`y = -h + 2h·j/vSegments` for `j = 0..vSegments`. -/
def generateVLines (h p : ℝ) (vSegments uSegments : ℕ) : List (List Vec3) :=
  (List.range (uSegments + 1)).map (fun (i : ℕ) =>
    let beta := 2 * Real.pi * (i : ℝ) / (uSegments : ℝ)
    (List.range (vSegments + 1)).map (fun (j : ℕ) =>
      let y := -h + 2 * h * (j : ℝ) / (vSegments : ℝ)
      parabolicHummingTopVertex y beta h p))

end P1

/-! ## P2 — the flat-shaded solid variant (src/P2/main.js, first document) -/

namespace P2

/-- `parabolicHummingTopVertex` (src/P2/main.js lines 98-106), textually the
same formula as the P1 copy. -/
def parabolicHummingTopVertex (y beta h p : ℝ) : Vec3 :=
  let rBase := |y| - h
  let r := rBase * rBase / (2 * p)
  let x := r * Real.cos beta
  let z := r * Real.sin beta
  ⟨x, y, z⟩

/-- Result of `buildGrid`: the `positions` and (zero-initialised) `normals`
arrays. -/
structure GridData where
  positions : List Vec3
  normals : List Vec3

/-- `buildGrid` (src/P2/main.js lines 115-130): for `j = 0..vSeg` (outer) and
`i = 0..uSeg` (inner), sample the surface at `y = -h + 2h·(j/vSeg)`,
`beta = 2π·(i/uSeg)` and push a zero normal alongside each position. -/
def buildGrid (uSeg vSeg : ℕ) (h p : ℝ) : GridData :=
  { positions :=
      (List.range (vSeg + 1)).flatMap (fun (j : ℕ) =>
        let v := (j : ℝ) / (vSeg : ℝ)
        let y := -h + 2.0 * h * v
        (List.range (uSeg + 1)).map (fun (i : ℕ) =>
          let u := (i : ℝ) / (uSeg : ℝ)
          let beta := 2.0 * Real.pi * u
          parabolicHummingTopVertex y beta h p))
    normals :=
      (List.range (vSeg + 1)).flatMap (fun _ =>
        (List.range (uSeg + 1)).map (fun _ => (0 : Vec3))) }

/-- `buildIndices` (src/P2/main.js lines 132-146): for each quad `(i, j)`
push the two triangles `(i0, i2, i1)` and `(i1, i2, i3)` where
`i0 = j·vertsPerRow + i`, `i1 = i0+1`, `i2 = i0+vertsPerRow`, `i3 = i2+1`,
`vertsPerRow = uSeg+1`. -/
def buildIndices (uSeg vSeg : ℕ) : List ℕ :=
  let vertsPerRow := uSeg + 1
  (List.range vSeg).flatMap (fun j =>
    (List.range uSeg).flatMap (fun i =>
      let i0 := j * vertsPerRow + i
      let i1 := i0 + 1
      let i2 := i0 + vertsPerRow
      let i3 := i2 + 1
      [i0, i2, i1, i1, i2, i3]))

/-- Edge cross product of the triangle `(i0, i1, i2)` of `positions`:
`cross (b - a) (c - a)` with `a`, `b`, `c` the three vertex positions
(the `nx, ny, nz` of src/P2/main.js lines 153-170 before normalization). -/
def faceCross (positions : List Vec3) (i0 i1 i2 : ℕ) : Vec3 :=
  let a := positions.getD i0 0
  let b := positions.getD i1 0
  let c := positions.getD i2 0
  Vec3.cross (b - a) (c - a)

/-- The vector a triangle adds to each of its three vertex slots: the cross
product, divided by its length only when that length exceeds `1e-6`
(src/P2/main.js lines 168-176). -/
def faceContribution (positions : List Vec3) (i0 i1 i2 : ℕ) : Vec3 :=
  let n := faceCross positions i0 i1 i2
  let len := n.norm3
  if len > 1e-6 then n.divScalar len else n

/-- Loop body of `accumulateNormalsFromIndices` (src/P2/main.js lines
150-186), factored as a function: add the face contribution of triangle
`(i0, i1, i2)` to the three normal slots `i0`, `i1`, `i2`, in that order. -/
def addTri (positions normals : List Vec3) (i0 i1 i2 : ℕ) : List Vec3 :=
  let fn := faceContribution positions i0 i1 i2
  let n1 := normals.set i0 (normals.getD i0 0 + fn)
  let n2 := n1.set i1 (n1.getD i1 0 + fn)
  n2.set i2 (n2.getD i2 0 + fn)

/-- `accumulateNormalsFromIndices` (src/P2/main.js lines 148-187): walk the
index list three entries at a time (`t += 3`), adding each triangle's face
contribution to its three vertices. -/
def accumulateNormalsFromIndices (positions normals : List Vec3) :
    List ℕ → List Vec3
  | i0 :: i1 :: i2 :: rest =>
      accumulateNormalsFromIndices positions (addTri positions normals i0 i1 i2) rest
  | _ => normals

/-- Per-vertex body of `normalizeNormals` (src/P2/main.js lines 190-204):
divide by the length if it exceeds `1e-6`, otherwise fall back to `(0,1,0)`. -/
def normalizeVec (n : Vec3) : Vec3 :=
  let len := n.norm3
  if len > 1e-6 then n.divScalar len else ⟨0, 1, 0⟩

/-- `normalizeNormals` (src/P2/main.js lines 189-205): apply `normalizeVec`
to every stride-3 cell of the normal buffer. -/
def normalizeNormals (normals : List Vec3) : List Vec3 :=
  normals.map normalizeVec

/-- Result of `CreateSurfaceData` for the flat-shaded variant. -/
structure SurfaceData where
  positions : List Vec3
  normals : List Vec3
  indices : List ℕ

/-- `CreateSurfaceData` (src/P2/main.js lines 207-215) with `h = 1.0`,
`p = 0.5`: build the grid and indices, accumulate face normals, normalize. -/
def CreateSurfaceData (uSeg vSeg : ℕ) : SurfaceData :=
  let h : ℝ := 1.0
  let p : ℝ := 0.5
  let grid := buildGrid uSeg vSeg h p
  let indices := buildIndices uSeg vSeg
  let accumulated := accumulateNormalsFromIndices grid.positions grid.normals indices
  { positions := grid.positions
    normals := normalizeNormals accumulated
    indices := indices }

end P2

/-! ## P2T — the textured solid variant (src/P2/main.js, second document) -/

namespace P2T

/-- `parabolicHummingTopVertex` (textured variant), textually the same
formula as the P1 and P2 copies. -/
def parabolicHummingTopVertex (y beta h p : ℝ) : Vec3 :=
  let rBase := |y| - h
  let r := rBase * rBase / (2 * p)
  let x := r * Real.cos beta
  let z := r * Real.sin beta
  ⟨x, y, z⟩

/-- The position buffer built by the grid loop of the textured
`CreateSurfaceData` (same iteration order `j` outer, `i` inner). -/
def gridPositions (uSeg vSeg : ℕ) (h p : ℝ) : List Vec3 :=
  (List.range (vSeg + 1)).flatMap (fun (j : ℕ) =>
    let v := (j : ℝ) / (vSeg : ℝ)
    let y := -h + 2.0 * h * v
    (List.range (uSeg + 1)).map (fun (i : ℕ) =>
      let u := (i : ℝ) / (uSeg : ℝ)
      let beta := 2.0 * Real.pi * u
      parabolicHummingTopVertex y beta h p))

/-- The zero-initialised normal buffer pushed by the same grid loop. -/
def gridZeroNormals (uSeg vSeg : ℕ) : List Vec3 :=
  (List.range (vSeg + 1)).flatMap (fun _ =>
    (List.range (uSeg + 1)).map (fun _ => (0 : Vec3)))

/-- The tangent buffer of the grid loop: derivative with respect to `beta`
at fixed `y`; `r` does not depend on `beta`, so the tangent is
`(-r·sin β, 0, r·cos β)` (textured `CreateSurfaceData`, tangent block). -/
def gridTangents (uSeg vSeg : ℕ) (h p : ℝ) : List Vec3 :=
  (List.range (vSeg + 1)).flatMap (fun (j : ℕ) =>
    let v := (j : ℝ) / (vSeg : ℝ)
    let y := -h + 2.0 * h * v
    (List.range (uSeg + 1)).map (fun (i : ℕ) =>
      let u := (i : ℝ) / (uSeg : ℝ)
      let beta := 2.0 * Real.pi * u
      let rBase := |y| - h
      let r := rBase * rBase / (2 * p)
      ⟨-r * Real.sin beta, 0, r * Real.cos beta⟩))

/-- The texture-coordinate buffer of the grid loop: `(u, v) = (i/uSeg, j/vSeg)`. -/
def gridTexCoords (uSeg vSeg : ℕ) : List (ℝ × ℝ) :=
  (List.range (vSeg + 1)).flatMap (fun (j : ℕ) =>
    let v := (j : ℝ) / (vSeg : ℝ)
    (List.range (uSeg + 1)).map (fun (i : ℕ) =>
      let u := (i : ℝ) / (uSeg : ℝ)
      (u, v)))

/-- `addFace` (textured `CreateSurfaceData`, helper): identical computation
to the loop body of the flat variant's `accumulateNormalsFromIndices`. -/
def addFace (positions normals : List Vec3) (i0 i1 i2 : ℕ) : List Vec3 :=
  let fn := P2.faceContribution positions i0 i1 i2
  let n1 := normals.set i0 (normals.getD i0 0 + fn)
  let n2 := n1.set i1 (n1.getD i1 0 + fn)
  n2.set i2 (n2.getD i2 0 + fn)

/-- The triangle index list built by the quad loop of the textured
`CreateSurfaceData` (same quads and winding as `P2.buildIndices`). -/
def buildIndicesT (uSeg vSeg : ℕ) : List ℕ :=
  let vertsPerRow := uSeg + 1
  (List.range vSeg).flatMap (fun j =>
    (List.range uSeg).flatMap (fun i =>
      let i0 := j * vertsPerRow + i
      let i1 := i0 + 1
      let i2 := i0 + vertsPerRow
      let i3 := i2 + 1
      [i0, i2, i1, i1, i2, i3]))

/-- The normal accumulation of the quad loop: for each quad call
`addFace (i0, i2, i1)` then `addFace (i1, i2, i3)` (textured
`CreateSurfaceData`, triangle build loop). -/
def accumulateQuads (positions : List Vec3) (uSeg vSeg : ℕ)
    (normals : List Vec3) : List Vec3 :=
  (List.range vSeg).foldl (fun ns j =>
    (List.range uSeg).foldl (fun ns i =>
      let vertsPerRow := uSeg + 1
      let i0 := j * vertsPerRow + i
      let i1 := i0 + 1
      let i2 := i0 + vertsPerRow
      let i3 := i2 + 1
      addFace positions (addFace positions ns i0 i2 i1) i1 i2 i3) ns) normals

/-- Per-vertex body of the final normalization loop of the textured
`CreateSurfaceData`: identical to the flat variant's `normalizeVec`. -/
def normalizeVecT (n : Vec3) : Vec3 :=
  let len := n.norm3
  if len > 1e-6 then n.divScalar len else ⟨0, 1, 0⟩

/-- Result of the textured `CreateSurfaceData`. -/
structure SurfaceDataT where
  positions : List Vec3
  normals : List Vec3
  tangents : List Vec3
  texCoords : List (ℝ × ℝ)
  indices : List ℕ

/-- The textured `CreateSurfaceData(uSeg, vSeg)`: first replaces falsy
(here: zero) arguments by 40 (`uSeg = uSeg || 40`), then builds the grid,
tangents, texture coordinates, triangle indices and facet-averaged
normals with `h = 1.0`, `p = 0.5`. -/
def CreateSurfaceData (uSeg0 vSeg0 : ℕ) : SurfaceDataT :=
  let uSeg := if uSeg0 = 0 then 40 else uSeg0
  let vSeg := if vSeg0 = 0 then 40 else vSeg0
  let h : ℝ := 1.0
  let p : ℝ := 0.5
  let positions := gridPositions uSeg vSeg h p
  let normals0 := gridZeroNormals uSeg vSeg
  let accumulated := accumulateQuads positions uSeg vSeg normals0
  { positions := positions
    normals := accumulated.map normalizeVecT
    tangents := gridTangents uSeg vSeg h p
    texCoords := gridTexCoords uSeg vSeg
    indices := buildIndicesT uSeg vSeg }

end P2T

/-! ## Transform pipeline

The `m4` matrix library is an external collaborator (not part of the
repository), so the matrix operations are abstracted into a structure of
operations; the claims about the transform pipeline concern only how the
source composes these operations. -/

/-- The operations of the external `m4` matrix library used by the
model-view composition, abstracted. -/
structure M4Ops (α : Type) where
  multiply : α → α → α
  translation : ℝ → ℝ → ℝ → α
  axisRotation : List ℝ → ℝ → α

namespace P1

/-- `computeTransforms` (src/P1/main.js lines 93-98):
`translate(0,0,-10) · (axisRotation([0.707,0.707,0], 0.7) · modelView)`. -/
def computeTransforms {α : Type} (m4 : M4Ops α) (modelView : α) : α :=
  let rotateToPointZero := m4.axisRotation [0.707, 0.707, 0] 0.7
  let translateToPointZero := m4.translation 0 0 (-10)
  let matAccum0 := m4.multiply rotateToPointZero modelView
  m4.multiply translateToPointZero matAccum0

end P1

namespace P2

/-- `computeModelView` (src/P2/main.js lines 219-225), as a function of the
view matrix obtained from the external trackball
(`spaceball.getViewMatrix()`). -/
def computeModelView {α : Type} (m4 : M4Ops α) (modelView : α) : α :=
  let rotateToPointZero := m4.axisRotation [0.707, 0.707, 0] 0.7
  let translateToPointZero := m4.translation 0 0 (-10)
  let matAccum0 := m4.multiply rotateToPointZero modelView
  m4.multiply translateToPointZero matAccum0

end P2

namespace P2T

/-- The model-view matrix `matAccum1` computed inline by the textured
variant's `draw` (src/P2/main.js lines 737-741), as a function of the view
matrix. -/
def drawModelView {α : Type} (m4 : M4Ops α) (modelView : α) : α :=
  let rotateToPointZero := m4.axisRotation [0.707, 0.707, 0] 0.7
  let translateToPointZero := m4.translation 0 0 (-10)
  let matAccum0 := m4.multiply rotateToPointZero modelView
  m4.multiply translateToPointZero matAccum0

end P2T

/-- Modelled from the spec (§4.4 step 2): "rotate by 0.7 radians about axis
`(0.707, 0.707, 0)`, then translate by `(0,0,-10)` — composed as
`translate · (rotate · view)`". -/
def specFixedReorientation {α : Type} (m4 : M4Ops α) (view : α) : α :=
  m4.multiply (m4.translation 0 0 (-10))
    (m4.multiply (m4.axisRotation [0.707, 0.707, 0] 0.7) view)

/-- Modelled from the spec (§4.1): the parametric surface contract
`rBase = |y| - h`, `r = rBase² / (2p)`, `x = r·cos(beta)`, `z = r·sin(beta)`,
`return (x, y, z)`. -/
def specSurfacePoint (y beta h p : ℝ) : Vec3 :=
  let rBase := |y| - h
  let r := rBase ^ 2 / (2 * p)
  ⟨r * Real.cos beta, y, r * Real.sin beta⟩

/-! ## Helper lemmas on grid-shaped lists -/

/-- Length of a `flatMap` over `range` whose pieces all have length `c`. -/
theorem flatMap_range_length {α : Type} (f : ℕ → List α) (c : ℕ)
    (hc : ∀ x, (f x).length = c) (n : ℕ) :
    ((List.range n).flatMap f).length = n * c := by
  induction n with
  | zero => simp
  | succ n ih =>
      rw [List.range_succ, List.flatMap_append, List.length_append, ih]
      simp [hc]
      ring

/-- Dropping `c·j` elements of a `flatMap` over `range n` whose pieces all
have length `c` lands exactly at the start of piece `j`. -/
theorem drop_flatMap_range {α : Type} (c : ℕ) :
    ∀ (j : ℕ) (f : ℕ → List α), (∀ x, (f x).length = c) → ∀ n, j < n →
      ((List.range n).flatMap f).drop (c * j) =
        f j ++ ((List.range (n - (j + 1))).map (fun t => t + (j + 1))).flatMap f := by
  intro j
  induction j with
  | zero =>
      intro f hc n hj
      obtain ⟨m, rfl⟩ : ∃ m, n = m + 1 := ⟨n - 1, by omega⟩
      rw [List.range_succ_eq_map, List.flatMap_cons, Nat.mul_zero, List.drop_zero]
      simp only [Nat.add_sub_cancel]
  | succ j ih =>
      intro f hc n hj
      obtain ⟨m, rfl⟩ : ∃ m, n = m + 1 := ⟨n - 1, by omega⟩
      rw [List.range_succ_eq_map, List.flatMap_cons]
      have hsplit : c * (j + 1) = (f 0).length + c * j := by rw [hc]; ring
      rw [hsplit, List.drop_append, List.flatMap_map]
      rw [ih (fun a => f a.succ) (fun x => hc _) m (by omega)]
      rw [List.flatMap_map, List.flatMap_map]
      have hm : m - (j + 1) = m + 1 - (j + 1 + 1) := by omega
      rw [hm]
      congr 1

/-- The position buffer of `buildGrid` has one entry per grid point. -/
theorem buildGrid_positions_length (uSeg vSeg : ℕ) (h p : ℝ) :
    (P2.buildGrid uSeg vSeg h p).positions.length = (uSeg + 1) * (vSeg + 1) := by
  simp only [P2.buildGrid]
  refine (flatMap_range_length _ (uSeg + 1) (fun x => ?_) (vSeg + 1)).trans (by ring)
  simp only [List.length_map, List.length_range]

/-- The zero-initialised normal buffer of `buildGrid` has one entry per grid
point. -/
theorem buildGrid_normals_length (uSeg vSeg : ℕ) (h p : ℝ) :
    (P2.buildGrid uSeg vSeg h p).normals.length = (uSeg + 1) * (vSeg + 1) := by
  simp only [P2.buildGrid]
  refine (flatMap_range_length _ (uSeg + 1) (fun x => ?_) (vSeg + 1)).trans (by ring)
  simp only [List.length_map, List.length_range]

/-- `buildIndices` emits six indices per grid quad. -/
theorem buildIndices_length (uSeg vSeg : ℕ) :
    (P2.buildIndices uSeg vSeg).length = 6 * (uSeg * vSeg) := by
  simp only [P2.buildIndices]
  refine (flatMap_range_length _ (uSeg * 6) (fun j => ?_) vSeg).trans (by ring)
  refine flatMap_range_length _ 6 (fun i => ?_) uSeg
  rfl

/-- `addTri` only updates entries in place, so it preserves the length. -/
theorem addTri_length (ps ns : List Vec3) (i0 i1 i2 : ℕ) :
    (P2.addTri ps ns i0 i1 i2).length = ns.length := by
  simp [P2.addTri]

/-- Normal accumulation preserves the length of the normal buffer. -/
theorem accumulateNormals_length (ps : List Vec3) (idx : List ℕ) (ns : List Vec3) :
    (P2.accumulateNormalsFromIndices ps ns idx).length = ns.length :=
  match idx with
  | [] => rfl
  | [_] => rfl
  | [_, _] => rfl
  | i0 :: i1 :: i2 :: rest =>
      (accumulateNormals_length ps rest (P2.addTri ps ns i0 i1 i2)).trans
        (addTri_length ps ns i0 i1 i2)

/-- The normal buffer of the flat variant's `CreateSurfaceData` has one
entry per grid point. -/
theorem createSurfaceData_normals_length (uSeg vSeg : ℕ) :
    (P2.CreateSurfaceData uSeg vSeg).normals.length = (uSeg + 1) * (vSeg + 1) := by
  simp only [P2.CreateSurfaceData, P2.normalizeNormals, List.length_map]
  rw [accumulateNormals_length]
  exact buildGrid_normals_length uSeg vSeg 1.0 0.5

/-- `getD` at an index different from the one just written. -/
theorem getD_set_of_ne {α : Type} (l : List α) (i j : ℕ) (a d : α) (h : i ≠ j) :
    (l.set i a).getD j d = l.getD j d := by
  rw [List.getD_eq_getElem?_getD, List.getElem?_set_ne h, ← List.getD_eq_getElem?_getD]

/-- `getD` at an in-range index that was just written. -/
theorem getD_set_self_of_lt {α : Type} (l : List α) (i : ℕ) (a d : α)
    (h : i < l.length) :
    (l.set i a).getD i d = a := by
  rw [List.getD_eq_getElem?_getD, List.getElem?_set_self h, Option.getD_some]

/-- `getD` on a `flatMap` over `range` whose pieces all have length `c`:
entry `c·j + i` is entry `i` of piece `j`. -/
theorem getD_flatMap_range {α : Type} (f : ℕ → List α) (c n j i : ℕ)
    (hj : j < n) (hc : ∀ x, (f x).length = c) (hi : i < c) (d : α) :
    ((List.range n).flatMap f).getD (c * j + i) d = (f j).getD i d := by
  have h1 : ((List.range n).flatMap f).getD (c * j + i) d =
      (((List.range n).flatMap f).drop (c * j)).getD i d := by
    rw [List.getD_eq_getElem?_getD, List.getD_eq_getElem?_getD, List.getElem?_drop]
  rw [h1, drop_flatMap_range c j f hc n hj,
    List.getD_append _ _ _ _ (by rw [hc]; exact hi)]

/-- `getD` of a `map` over `range`. -/
theorem getD_map_range {α : Type} (g : ℕ → α) (n i : ℕ) (hi : i < n) (d : α) :
    ((List.range n).map g).getD i d = g i := by
  rw [List.getD_eq_getElem?_getD, List.getElem?_map, List.getElem?_range hi,
    Option.map_some', Option.getD_some]

/-- Each output of the per-vertex normalization step is either exactly a
unit vector or exactly the fallback `(0, 1, 0)`. -/
theorem normalizeVec_unit_or_fallback (n : Vec3) :
    |((P2.normalizeVec n).norm3) - 1| ≤ 1e-4 ∨ P2.normalizeVec n = ⟨0, 1, 0⟩ := by
  unfold P2.normalizeVec
  by_cases hn : n.norm3 > 1e-6
  · left
    rw [if_pos hn, Vec3.norm3_divScalar _ (lt_trans (by norm_num) hn),
      div_self (ne_of_gt (lt_trans (by norm_num) hn))]
    norm_num
  · right
    rw [if_neg hn]

/-- The tangent buffer of the textured variant has one entry per grid
point. -/
theorem gridTangents_length (uSeg vSeg : ℕ) (h p : ℝ) :
    (P2T.gridTangents uSeg vSeg h p).length = (uSeg + 1) * (vSeg + 1) := by
  simp only [P2T.gridTangents]
  refine (flatMap_range_length _ (uSeg + 1) (fun x => ?_) (vSeg + 1)).trans (by ring)
  simp only [List.length_map, List.length_range]

/-- Length of a tangent-shaped vector `(-r·sin β, 0, r·cos β)` with
`r ≥ 0`: exactly `r`. -/
theorem norm3_tangent (r beta : ℝ) (hr : 0 ≤ r) :
    (Vec3.norm3 ⟨-r * Real.sin beta, 0, r * Real.cos beta⟩) = r := by
  unfold Vec3.norm3
  have h1 : (-r * Real.sin beta) ^ 2 + (0 : ℝ) ^ 2 + (r * Real.cos beta) ^ 2 =
      r ^ 2 * (Real.sin beta ^ 2 + Real.cos beta ^ 2) := by ring
  rw [h1, Real.sin_sq_add_cos_sq, mul_one, Real.sqrt_sq hr]

/-! ## Claim theorems -/

/-- C1: for every resolution `uSegments ≥ 1`, `vSegments ≥ 1`, every
per-vertex normal produced by the differential geometry pass (accumulate
face normals, then normalize) has Euclidean length within `1e-4` of 1
(in the real-arithmetic model it is exactly 1), or is exactly the fallback
vector `(0, 1, 0)` — in both the flat-shaded and the textured variant. -/
theorem generated_normals_unit_or_fallback (uSeg vSeg : ℕ)
    (hu : 1 ≤ uSeg) (hv : 1 ≤ vSeg) :
    (∀ n ∈ (P2.CreateSurfaceData uSeg vSeg).normals,
      |n.norm3 - 1| ≤ 1e-4 ∨ n = ⟨0, 1, 0⟩) ∧
    (∀ n ∈ (P2T.CreateSurfaceData uSeg vSeg).normals,
      |n.norm3 - 1| ≤ 1e-4 ∨ n = ⟨0, 1, 0⟩) := by
  constructor
  · intro n hn
    obtain ⟨m, _, rfl⟩ := List.mem_map.1 hn
    exact normalizeVec_unit_or_fallback m
  · intro n hn
    obtain ⟨m, _, rfl⟩ := List.mem_map.1 hn
    exact normalizeVec_unit_or_fallback m

/-- Witness for C1 at `uSegments = vSegments = 1`, first normal slot. -/
theorem generated_normals_unit_or_fallback_witness :
    |(((P2.CreateSurfaceData 1 1).normals).getD 0 ⟨0, 0, 0⟩).norm3 - 1| ≤ 1e-4 ∨
      ((P2.CreateSurfaceData 1 1).normals).getD 0 ⟨0, 0, 0⟩ = ⟨0, 1, 0⟩ := by
  have hlen : 0 < (P2.CreateSurfaceData 1 1).normals.length := by
    rw [createSurfaceData_normals_length]
    norm_num
  rw [List.getD_eq_getElem _ _ hlen]
  exact (generated_normals_unit_or_fallback 1 1 (by decide) (by decide)).1 _
    (List.getElem_mem hlen)

/-- C3: for every `uSegments ≥ 1` and `vSegments ≥ 1`, the index list holds,
for each quad `(i, j)`, exactly the two triangles `(i0, i2, i1)` and
`(i1, i2, i3)` in that order at flat offset `6·(j·uSegments + i)`, where
`i0 = j·rowWidth + i`, `i1 = i0+1`, `i2 = i0+rowWidth`, `i3 = i2+1`,
`rowWidth = uSegments+1`; consequently every index value is below the
vertex count `(uSegments+1)·(vSegments+1)`.  The textured variant builds
the identical index list. -/
theorem triangle_index_list_content (uSeg vSeg : ℕ)
    (hu : 1 ≤ uSeg) (hv : 1 ≤ vSeg) :
    (∀ j < vSeg, ∀ i < uSeg,
      ((P2.buildIndices uSeg vSeg).drop (6 * (j * uSeg + i))).take 6 =
        [j * (uSeg + 1) + i,
         j * (uSeg + 1) + i + (uSeg + 1),
         j * (uSeg + 1) + i + 1,
         j * (uSeg + 1) + i + 1,
         j * (uSeg + 1) + i + (uSeg + 1),
         j * (uSeg + 1) + i + (uSeg + 1) + 1]) ∧
    (∀ x ∈ P2.buildIndices uSeg vSeg, x < (uSeg + 1) * (vSeg + 1)) ∧
    P2T.buildIndicesT = P2.buildIndices := by
  refine ⟨?_, ?_, rfl⟩
  · intro j hj i hi
    simp only [P2.buildIndices]
    have hrowlen : ∀ x : ℕ, ((List.range uSeg).flatMap (fun i =>
        [x * (uSeg + 1) + i, x * (uSeg + 1) + i + (uSeg + 1),
         x * (uSeg + 1) + i + 1, x * (uSeg + 1) + i + 1,
         x * (uSeg + 1) + i + (uSeg + 1),
         x * (uSeg + 1) + i + (uSeg + 1) + 1])).length = uSeg * 6 :=
      fun x => by refine flatMap_range_length _ 6 (fun y => ?_) uSeg; rfl
    have hquadlen : ∀ y : ℕ, ([j * (uSeg + 1) + y, j * (uSeg + 1) + y + (uSeg + 1),
        j * (uSeg + 1) + y + 1, j * (uSeg + 1) + y + 1,
        j * (uSeg + 1) + y + (uSeg + 1),
        j * (uSeg + 1) + y + (uSeg + 1) + 1] : List ℕ).length = 6 :=
      fun y => rfl
    have harith : 6 * (j * uSeg + i) = uSeg * 6 * j + 6 * i := by ring
    rw [harith, ← List.drop_drop,
      drop_flatMap_range (uSeg * 6) j _ hrowlen vSeg hj]
    have hle : 6 * i ≤ ((List.range uSeg).flatMap (fun y =>
        [j * (uSeg + 1) + y, j * (uSeg + 1) + y + (uSeg + 1),
         j * (uSeg + 1) + y + 1, j * (uSeg + 1) + y + 1,
         j * (uSeg + 1) + y + (uSeg + 1),
         j * (uSeg + 1) + y + (uSeg + 1) + 1])).length := by
      rw [hrowlen j]; omega
    rw [List.drop_append_of_le_length hle,
      drop_flatMap_range 6 i _ hquadlen uSeg hi,
      List.append_assoc, List.take_left' (hquadlen i)]
  · intro x hx
    simp only [P2.buildIndices, List.mem_flatMap, List.mem_range] at hx
    obtain ⟨j, hj, i, hi, hx⟩ := hx
    have key : j * (uSeg + 1) + (uSeg + 1) ≤ vSeg * (uSeg + 1) := by
      have h2 : (j + 1) * (uSeg + 1) ≤ vSeg * (uSeg + 1) :=
        Nat.mul_le_mul_right _ hj
      calc j * (uSeg + 1) + (uSeg + 1) = (j + 1) * (uSeg + 1) := by ring
        _ ≤ vSeg * (uSeg + 1) := h2
    have hexp : (uSeg + 1) * (vSeg + 1) = vSeg * (uSeg + 1) + uSeg + 1 := by ring
    simp only [List.mem_cons, List.not_mem_nil, or_false] at hx
    rcases hx with rfl | rfl | rfl | rfl | rfl | rfl
    all_goals linarith

/-- Witness for C3 at `uSegments = 4`, `vSegments = 2`, quad `(i, j) = (2, 1)`
(first index of the list checked against the vertex count 15). -/
theorem triangle_index_list_content_witness :
    ((P2.buildIndices 4 2).drop (6 * (1 * 4 + 2))).take 6 =
      [1 * (4 + 1) + 2, 1 * (4 + 1) + 2 + (4 + 1), 1 * (4 + 1) + 2 + 1,
       1 * (4 + 1) + 2 + 1, 1 * (4 + 1) + 2 + (4 + 1),
       1 * (4 + 1) + 2 + (4 + 1) + 1] ∧
    (P2.buildIndices 4 2).getD 0 0 < (4 + 1) * (2 + 1) := by
  obtain ⟨h1, h2, h3⟩ := triangle_index_list_content 4 2 (by decide) (by decide)
  refine ⟨h1 1 (by decide) 2 (by decide), ?_⟩
  have hlen : 0 < (P2.buildIndices 4 2).length := by
    rw [buildIndices_length]; norm_num
  rw [List.getD_eq_getElem _ _ hlen]
  exact h2 _ (List.getElem_mem hlen)

/-- C5 (amended): during normal accumulation each triangle adds one and the
same contribution vector to each of its three vertex slots; that
contribution is the normalized face cross product (a unit vector) when the
cross-product length exceeds `1e-6`, and otherwise it is the *raw,
unnormalized* cross product — near-zero (length at most `1e-6`) but the
zero vector only when the cross product itself is zero.  The textured
variant's `addFace` is the identical computation. -/
theorem face_contribution_characterization (ps ns : List Vec3) (i0 i1 i2 : ℕ)
    (h0 : i0 < ns.length) (h1 : i1 < ns.length) (h2 : i2 < ns.length)
    (h01 : i0 ≠ i1) (h02 : i0 ≠ i2) (h12 : i1 ≠ i2) :
    ((P2.addTri ps ns i0 i1 i2).getD i0 0 =
        ns.getD i0 0 + P2.faceContribution ps i0 i1 i2 ∧
      (P2.addTri ps ns i0 i1 i2).getD i1 0 =
        ns.getD i1 0 + P2.faceContribution ps i0 i1 i2 ∧
      (P2.addTri ps ns i0 i1 i2).getD i2 0 =
        ns.getD i2 0 + P2.faceContribution ps i0 i1 i2) ∧
    (1e-6 < (P2.faceCross ps i0 i1 i2).norm3 →
      (P2.faceContribution ps i0 i1 i2).norm3 = 1) ∧
    ((P2.faceCross ps i0 i1 i2).norm3 ≤ 1e-6 →
      P2.faceContribution ps i0 i1 i2 = P2.faceCross ps i0 i1 i2 ∧
      (P2.faceContribution ps i0 i1 i2).norm3 ≤ 1e-6) ∧
    P2T.addFace = P2.addTri := by
  refine ⟨⟨?_, ?_, ?_⟩, ?_, ?_, rfl⟩
  · simp only [P2.addTri]
    rw [getD_set_of_ne _ _ _ _ _ (Ne.symm h02),
      getD_set_of_ne _ _ _ _ _ (Ne.symm h01),
      getD_set_self_of_lt _ _ _ _ h0]
  · simp only [P2.addTri]
    rw [getD_set_of_ne _ _ _ _ _ (Ne.symm h12),
      getD_set_self_of_lt _ _ _ _ (by rw [List.length_set]; exact h1),
      getD_set_of_ne _ _ _ _ _ h01]
  · simp only [P2.addTri]
    rw [getD_set_self_of_lt _ _ _ _
        (by rw [List.length_set, List.length_set]; exact h2),
      getD_set_of_ne _ _ _ _ _ h12,
      getD_set_of_ne _ _ _ _ _ h02]
  · intro hlt
    unfold P2.faceContribution
    rw [if_pos hlt, Vec3.norm3_divScalar _ (lt_trans (by norm_num) hlt)]
    exact div_self (ne_of_gt (lt_trans (by norm_num) hlt))
  · intro hle
    unfold P2.faceContribution
    rw [if_neg (not_lt.2 hle)]
    exact ⟨rfl, hle⟩

/-- Witness for C5's amended theorem: a unit right triangle (cross length 1,
contribution of unit length, added to slot `i0`). -/
theorem face_contribution_characterization_witness :
    (P2.addTri [⟨0, 0, 0⟩, ⟨1, 0, 0⟩, ⟨0, 1, 0⟩]
        [⟨0, 0, 0⟩, ⟨0, 0, 0⟩, ⟨0, 0, 0⟩] 0 1 2).getD 0 0 =
      ([⟨0, 0, 0⟩, ⟨0, 0, 0⟩, ⟨0, 0, 0⟩] : List Vec3).getD 0 0 +
        P2.faceContribution [⟨0, 0, 0⟩, ⟨1, 0, 0⟩, ⟨0, 1, 0⟩] 0 1 2 ∧
    (P2.faceContribution [⟨0, 0, 0⟩, ⟨1, 0, 0⟩, ⟨0, 1, 0⟩] 0 1 2).norm3 = 1 := by
  have h := face_contribution_characterization
    [⟨0, 0, 0⟩, ⟨1, 0, 0⟩, ⟨0, 1, 0⟩] [⟨0, 0, 0⟩, ⟨0, 0, 0⟩, ⟨0, 0, 0⟩] 0 1 2
    (by simp) (by simp) (by simp) (by norm_num) (by norm_num) (by norm_num)
  refine ⟨h.1.1, h.2.1 ?_⟩
  have hc : P2.faceCross [⟨0, 0, 0⟩, ⟨1, 0, 0⟩, ⟨0, 1, 0⟩] 0 1 2 = ⟨0, 0, 1⟩ := by
    simp [P2.faceCross, Vec3.cross] <;> norm_num
  rw [hc]
  unfold Vec3.norm3
  rw [show (0:ℝ) ^ 2 + 0 ^ 2 + 1 ^ 2 = 1 by norm_num, Real.sqrt_one]
  norm_num

/-- Counterexample for C5 as stated: a tiny triangle whose edge cross
product has length `1e-8 ≤ 1e-6` contributes the raw cross product
`(0, 0, 1e-8)`, which is *not* exactly the zero vector, and the
accumulated normal of its first vertex is likewise nonzero. -/
theorem degenerate_face_contribution_counterexample :
    (P2.faceCross [⟨0, 0, 0⟩, ⟨1e-4, 0, 0⟩, ⟨0, 1e-4, 0⟩] 0 1 2).norm3 ≤ 1e-6 ∧
    P2.faceContribution [⟨0, 0, 0⟩, ⟨1e-4, 0, 0⟩, ⟨0, 1e-4, 0⟩] 0 1 2 ≠ 0 ∧
    (P2.accumulateNormalsFromIndices [⟨0, 0, 0⟩, ⟨1e-4, 0, 0⟩, ⟨0, 1e-4, 0⟩]
        [0, 0, 0] [0, 1, 2]).getD 0 0 ≠ 0 := by
  have hc : P2.faceCross [⟨0, 0, 0⟩, ⟨1e-4, 0, 0⟩, ⟨0, 1e-4, 0⟩] 0 1 2 =
      ⟨0, 0, 1e-8⟩ := by
    simp [P2.faceCross, Vec3.cross] <;> norm_num
  have hnorm : (P2.faceCross [⟨0, 0, 0⟩, ⟨1e-4, 0, 0⟩, ⟨0, 1e-4, 0⟩] 0 1 2).norm3 =
      1e-8 := by
    rw [hc]
    unfold Vec3.norm3
    rw [show (0:ℝ) ^ 2 + 0 ^ 2 + (1e-8) ^ 2 = (1e-8) ^ 2 by norm_num,
      Real.sqrt_sq (by norm_num)]
  have hfc : P2.faceContribution [⟨0, 0, 0⟩, ⟨1e-4, 0, 0⟩, ⟨0, 1e-4, 0⟩] 0 1 2 =
      ⟨0, 0, 1e-8⟩ := by
    unfold P2.faceContribution
    rw [if_neg (by rw [hnorm]; norm_num), hc]
  refine ⟨by rw [hnorm]; norm_num, by rw [hfc]; simp [Vec3.zero]; norm_num, ?_⟩
  show (P2.addTri [⟨0, 0, 0⟩, ⟨1e-4, 0, 0⟩, ⟨0, 1e-4, 0⟩] [0, 0, 0] 0 1 2).getD 0 0 ≠ 0
  simp only [P2.addTri]
  rw [getD_set_of_ne _ _ _ _ _ (by norm_num),
    getD_set_of_ne _ _ _ _ _ (by norm_num),
    getD_set_self_of_lt _ _ _ _ (by simp), hfc]
  simp [Vec3.zero]
  norm_num

/-- C2: for every `uSegments ≥ 1` and `vSegments ≥ 1`, the solid-mode mesh
builder produces exactly `(uSegments+1)·(vSegments+1)` vertices (the
position buffer holds that many 3-float entries, i.e. `3·(u+1)·(v+1)`
floats) and exactly `2·uSegments·vSegments` triangles (the index buffer
holds `6·uSegments·vSegments` entries). -/
theorem solid_mesh_vertex_and_triangle_counts (uSeg vSeg : ℕ)
    (hu : 1 ≤ uSeg) (hv : 1 ≤ vSeg) :
    (P2.CreateSurfaceData uSeg vSeg).positions.length = (uSeg + 1) * (vSeg + 1) ∧
    (P2.CreateSurfaceData uSeg vSeg).indices.length = 6 * (uSeg * vSeg) := by
  constructor
  · simp only [P2.CreateSurfaceData]
    exact buildGrid_positions_length uSeg vSeg 1.0 0.5
  · simp only [P2.CreateSurfaceData]
    exact buildIndices_length uSeg vSeg

/-- Witness for C2 at the spec's scenario `uSegments = 4`, `vSegments = 2`:
15 vertices and 48 index entries (16 triangles). -/
theorem solid_mesh_vertex_and_triangle_counts_witness :
    (P2.CreateSurfaceData 4 2).positions.length = 15 ∧
    (P2.CreateSurfaceData 4 2).indices.length = 48 := by
  have h := solid_mesh_vertex_and_triangle_counts 4 2 (by decide) (by decide)
  exact ⟨h.1.trans (by norm_num), h.2.trans (by norm_num)⟩

/-- C7: for every `uSegments ≥ 1` and `vSegments ≥ 1`, the wireframe builder
produces exactly `vSegments+1` U-polylines of `uSegments+1` vertices each,
and exactly `uSegments+1` V-polylines of `vSegments+1` vertices each. -/
theorem wireframe_polyline_counts (h p : ℝ) (uSegments vSegments : ℕ)
    (hu : 1 ≤ uSegments) (hv : 1 ≤ vSegments) :
    (P1.generateULines h p vSegments uSegments).length = vSegments + 1 ∧
    (∀ line ∈ P1.generateULines h p vSegments uSegments,
      line.length = uSegments + 1) ∧
    (P1.generateVLines h p vSegments uSegments).length = uSegments + 1 ∧
    (∀ line ∈ P1.generateVLines h p vSegments uSegments,
      line.length = vSegments + 1) := by
  refine ⟨?_, ?_, ?_, ?_⟩
  · simp only [P1.generateULines, List.length_map, List.length_range]
  · intro line hline
    simp only [P1.generateULines, List.mem_map] at hline
    obtain ⟨j, hj, rfl⟩ := hline
    simp only [List.length_map, List.length_range]
  · simp only [P1.generateVLines, List.length_map, List.length_range]
  · intro line hline
    simp only [P1.generateVLines, List.mem_map] at hline
    obtain ⟨i, hi, rfl⟩ := hline
    simp only [List.length_map, List.length_range]

/-- Witness for C7 at `uSegments = 4`, `vSegments = 2` (and `h = 1`,
`p = 1/2`): 3 U-polylines of 5 vertices, 5 V-polylines of 3 vertices. -/
theorem wireframe_polyline_counts_witness :
    (P1.generateULines 1 (1/2) 2 4).length = 3 ∧
    ((P1.generateULines 1 (1/2) 2 4).getD 0 []).length = 5 ∧
    (P1.generateVLines 1 (1/2) 2 4).length = 5 ∧
    ((P1.generateVLines 1 (1/2) 2 4).getD 0 []).length = 3 := by
  obtain ⟨h1, h2, h3, h4⟩ := wireframe_polyline_counts 1 (1/2) 4 2
    (by decide) (by decide)
  refine ⟨h1, ?_, h3, ?_⟩
  · have hl : 0 < (P1.generateULines 1 (1/2) 2 4).length := by rw [h1]; norm_num
    rw [List.getD_eq_getElem _ _ hl]
    exact h2 _ (List.getElem_mem hl)
  · have hl : 0 < (P1.generateVLines 1 (1/2) 2 4).length := by rw [h3]; norm_num
    rw [List.getD_eq_getElem _ _ hl]
    exact h4 _ (List.getElem_mem hl)

/-- C4: for every `y`, `beta`, `h` and `p ≠ 0`, the parametric surface
function returns `(r·cos β, y, r·sin β)` with `rBase = |y| - h`,
`r = rBase²/(2p)` (the spec's contract), and all three variants compute the
same pure function. -/
theorem surface_function_contract (y beta h p : ℝ) (hp : p ≠ 0) :
    P1.parabolicHummingTopVertex y beta h p = specSurfacePoint y beta h p ∧
    P1.parabolicHummingTopVertex = P2.parabolicHummingTopVertex ∧
    P2.parabolicHummingTopVertex = P2T.parabolicHummingTopVertex := by
  refine ⟨?_, rfl, rfl⟩
  simp only [P1.parabolicHummingTopVertex, specSurfacePoint, pow_two]

/-- Witness for C4 at `y = 0`, `beta = 0`, `h = 1`, `p = 1/2`. -/
theorem surface_function_contract_witness :
    P1.parabolicHummingTopVertex 0 0 1 (1/2) = specSurfacePoint 0 0 1 (1/2) ∧
    P1.parabolicHummingTopVertex = P2.parabolicHummingTopVertex ∧
    P2.parabolicHummingTopVertex = P2T.parabolicHummingTopVertex :=
  surface_function_contract 0 0 1 (1/2) (by norm_num)

/-- C8: the `y`-component of the returned point is the input `y`, exactly,
in all three variants. -/
theorem surface_y_component_exact (y beta h p : ℝ) :
    (P1.parabolicHummingTopVertex y beta h p).y = y ∧
    (P2.parabolicHummingTopVertex y beta h p).y = y ∧
    (P2T.parabolicHummingTopVertex y beta h p).y = y :=
  ⟨rfl, rfl, rfl⟩

/-- C9: for every view matrix, the wireframe variant's `computeTransforms`,
the solid variant's `computeModelView` and the textured variant's inline
`draw` composition all produce
`translation(0,0,-10) · (axisRotation((0.707,0.707,0), 0.7) · view)`. -/
theorem modelview_composition_agreement {α : Type} (m4 : M4Ops α) (view : α) :
    P1.computeTransforms m4 view = specFixedReorientation m4 view ∧
    P2.computeModelView m4 view = specFixedReorientation m4 view ∧
    P2T.drawModelView m4 view = specFixedReorientation m4 view :=
  ⟨rfl, rfl, rfl⟩

/-- C10: the textured variant's `CreateSurfaceData` replaces a zero (falsy)
resolution argument by 40, so `CreateSurfaceData(0,0)` returns exactly the
data of `CreateSurfaceData(40,40)`; the flat variant's defaults apply only
to omitted arguments, so calling it with 0 produces a degenerate 1-vertex
grid instead of the 41×41 default grid. -/
theorem textured_zero_resolution_defaults :
    P2T.CreateSurfaceData 0 0 = P2T.CreateSurfaceData 40 40 ∧
    (P2.CreateSurfaceData 0 0).positions.length = 1 ∧
    (P2.CreateSurfaceData 40 40).positions.length = 1681 ∧
    (P2.CreateSurfaceData 0 0).positions.length ≠
      (P2.CreateSurfaceData 40 40).positions.length := by
  have h0 : (P2.CreateSurfaceData 0 0).positions.length = 1 := by
    simp only [P2.CreateSurfaceData]
    rw [buildGrid_positions_length]
  have h40 : (P2.CreateSurfaceData 40 40).positions.length = 1681 := by
    simp only [P2.CreateSurfaceData]
    rw [buildGrid_positions_length]
  exact ⟨rfl, h0, h40, by omega⟩

/-- C6 (amended): after the geometry pass of the textured variant, a tangent
vector is in general *not* unit length: its Euclidean length equals the
local radius `r = (|y| − h)²/(2p)` of its grid row (`h = 1`, `p = 0.5`),
which is 1 only where that radius happens to be 1. -/
theorem tangent_length_equals_local_radius (uSeg vSeg : ℕ)
    (hu : 1 ≤ uSeg) (hv : 1 ≤ vSeg) :
    ∀ t ∈ (P2T.CreateSurfaceData uSeg vSeg).tangents,
      ∃ j ≤ vSeg, t.norm3 =
        (|(-1 : ℝ) + 2 * ((j : ℝ) / (vSeg : ℝ))| - 1) ^ 2 := by
  intro t ht
  have hu0 : uSeg ≠ 0 := by omega
  have hv0 : vSeg ≠ 0 := by omega
  have hif : (P2T.CreateSurfaceData uSeg vSeg).tangents =
      P2T.gridTangents uSeg vSeg 1.0 0.5 := by
    simp only [P2T.CreateSurfaceData, if_neg hu0, if_neg hv0]
  rw [hif] at ht
  simp only [P2T.gridTangents, List.mem_flatMap, List.mem_range,
    List.mem_map] at ht
  obtain ⟨j, hj, i, hi, rfl⟩ := ht
  refine ⟨j, by omega, ?_⟩
  rw [norm3_tangent _ _ (div_nonneg (mul_self_nonneg _) (by norm_num))]
  have hY : (-1.0 + 2.0 * 1.0 * ((j : ℝ) / (vSeg : ℝ))) =
      -1 + 2 * ((j : ℝ) / (vSeg : ℝ)) := by norm_num
  rw [hY, pow_two]
  norm_num

/-- Witness for C6's amended theorem at `uSegments = vSegments = 1`, first
tangent slot. -/
theorem tangent_length_equals_local_radius_witness :
    ∃ j : ℕ, j ≤ 1 ∧
      (((P2T.CreateSurfaceData 1 1).tangents).getD 0 ⟨0, 0, 0⟩).norm3 =
        (|(-1 : ℝ) + 2 * ((j : ℝ) / ((1 : ℕ) : ℝ))| - 1) ^ 2 := by
  have hif : (P2T.CreateSurfaceData 1 1).tangents =
      P2T.gridTangents 1 1 1.0 0.5 := by
    simp only [P2T.CreateSurfaceData, if_neg (by norm_num : (1 : ℕ) ≠ 0)]
  have hlen : 0 < (P2T.CreateSurfaceData 1 1).tangents.length := by
    rw [hif, gridTangents_length]
    norm_num
  rw [List.getD_eq_getElem _ _ hlen]
  exact tangent_length_equals_local_radius 1 1 (by decide) (by decide) _
    (List.getElem_mem hlen)

/-- Counterexample for C6 as stated: in the textured mesh at resolution
`uSegments = 2`, `vSegments = 4`, the tangent of vertex 3 (grid point
`j = 1`, `i = 0`, at `y = -1/2`) has length `1/4 ≠ 1`, yet that vertex
belongs to the non-degenerate triangle `(3, 6, 4)` (stored at flat index
positions 12-14), whose edge-cross length is `1/4 > 1e-6`. -/
theorem tangent_unit_length_counterexample :
    ((P2T.CreateSurfaceData 2 4).tangents.getD 3 0).norm3 = 1 / 4 ∧
    ((P2T.CreateSurfaceData 2 4).tangents.getD 3 0).norm3 ≠ 1 ∧
    (P2T.CreateSurfaceData 2 4).indices.getD 12 0 = 3 ∧
    (P2T.CreateSurfaceData 2 4).indices.getD 13 0 = 6 ∧
    (P2T.CreateSurfaceData 2 4).indices.getD 14 0 = 4 ∧
    1e-6 < (P2.faceCross (P2T.CreateSurfaceData 2 4).positions 3 6 4).norm3 := by
  have htan : (P2T.CreateSurfaceData 2 4).tangents =
      P2T.gridTangents 2 4 1.0 0.5 := by
    simp only [P2T.CreateSurfaceData]
    norm_num
  have hpos : (P2T.CreateSurfaceData 2 4).positions =
      P2T.gridPositions 2 4 1.0 0.5 := by
    simp only [P2T.CreateSurfaceData]
    norm_num
  have hind : (P2T.CreateSurfaceData 2 4).indices = P2T.buildIndicesT 2 4 := by
    simp only [P2T.CreateSurfaceData]
    norm_num
  have hy1 : (|(-1.0 + 2.0 * 1.0 * (((1 : ℕ) : ℝ) / ((4 : ℕ) : ℝ)))| : ℝ) =
      1 / 2 := by
    rw [show (-1.0 + 2.0 * 1.0 * (((1 : ℕ) : ℝ) / ((4 : ℕ) : ℝ))) = -(1 / 2) by
      push_cast; norm_num]
    rw [abs_neg, abs_of_nonneg (by norm_num)]
  have hβ0 : (2.0 * Real.pi * (((0 : ℕ) : ℝ) / ((2 : ℕ) : ℝ))) = 0 := by
    push_cast
    ring
  have hβ1 : (2.0 * Real.pi * (((1 : ℕ) : ℝ) / ((2 : ℕ) : ℝ))) = Real.pi := by
    push_cast
    ring
  have hnval : ((P2T.gridTangents 2 4 1.0 0.5).getD 3 0).norm3 = 1 / 4 := by
    simp only [P2T.gridTangents, show List.range 5 = [0, 1, 2, 3, 4] by decide,
      show List.range 3 = [0, 1, 2] by decide, List.flatMap_cons,
      List.flatMap_nil, List.map_cons, List.map_nil, List.append_nil,
      List.cons_append, List.nil_append, List.getD_cons_succ,
      List.getD_cons_zero]
    rw [norm3_tangent _ _ (div_nonneg (mul_self_nonneg _) (by norm_num)), hy1]
    norm_num
  have hp3 : (P2T.gridPositions 2 4 1.0 0.5).getD 3 0 = ⟨1 / 4, -(1 / 2), 0⟩ := by
    simp only [P2T.gridPositions, show List.range 5 = [0, 1, 2, 3, 4] by decide,
      show List.range 3 = [0, 1, 2] by decide, List.flatMap_cons,
      List.flatMap_nil, List.map_cons, List.map_nil, List.append_nil,
      List.cons_append, List.nil_append, List.getD_cons_succ,
      List.getD_cons_zero, P2T.parabolicHummingTopVertex]
    rw [hβ0, Real.cos_zero, Real.sin_zero, hy1]
    simp only [Vec3.mk.injEq]
    push_cast
    norm_num
  have hp4 : (P2T.gridPositions 2 4 1.0 0.5).getD 4 0 =
      ⟨-(1 / 4), -(1 / 2), 0⟩ := by
    simp only [P2T.gridPositions, show List.range 5 = [0, 1, 2, 3, 4] by decide,
      show List.range 3 = [0, 1, 2] by decide, List.flatMap_cons,
      List.flatMap_nil, List.map_cons, List.map_nil, List.append_nil,
      List.cons_append, List.nil_append, List.getD_cons_succ,
      List.getD_cons_zero, P2T.parabolicHummingTopVertex]
    rw [hβ1, Real.cos_pi, Real.sin_pi, hy1]
    simp only [Vec3.mk.injEq]
    push_cast
    norm_num
  have hp6 : (P2T.gridPositions 2 4 1.0 0.5).getD 6 0 = ⟨1, 0, 0⟩ := by
    simp only [P2T.gridPositions, show List.range 5 = [0, 1, 2, 3, 4] by decide,
      show List.range 3 = [0, 1, 2] by decide, List.flatMap_cons,
      List.flatMap_nil, List.map_cons, List.map_nil, List.append_nil,
      List.cons_append, List.nil_append, List.getD_cons_succ,
      List.getD_cons_zero, P2T.parabolicHummingTopVertex]
    rw [hβ0, Real.cos_zero, Real.sin_zero]
    simp only [Vec3.mk.injEq]
    push_cast
    norm_num
  have hfc : P2.faceCross (P2T.gridPositions 2 4 1.0 0.5) 3 6 4 =
      ⟨0, 0, 1 / 4⟩ := by
    unfold P2.faceCross
    rw [hp3, hp4, hp6]
    simp only [Vec3.cross, Vec3.sub_def, Vec3.mk.injEq]
    norm_num
  refine ⟨by rw [htan]; exact hnval, by rw [htan, hnval]; norm_num, ?_, ?_, ?_, ?_⟩
  · rw [hind]; decide
  · rw [hind]; decide
  · rw [hind]; decide
  · rw [hpos, hfc]
    unfold Vec3.norm3
    rw [show (0 : ℝ) ^ 2 + 0 ^ 2 + (1 / 4) ^ 2 = (1 / 4) ^ 2 by norm_num,
      Real.sqrt_sq (by norm_num)]
    norm_num
